import Mathlib

/-!
Verification of the Astro DB config module: the zod field/collection schemas
and the `defineCollection` / `defineWritableCollection` API.

The embedding models JavaScript values (`Value`), JS objects as association
lists in insertion order, zod parsing as `Value → Option Value` (with `none`
for a schema-violation error, and unknown keys stripped as `z.object` does),
and the mutation performed by `baseDefineCollection` / `_setMeta` as pure
state transformation on a resolved-collection record.
-/

set_option autoImplicit false

namespace AstroDb

/-- A JavaScript runtime value, as far as the config module observes them.
`vdate` is a JS `Date` carrying its epoch timestamp; `vfunc r` is a
zero-argument function returning `r` (the config schemas only ever call the
user's functions with no arguments). -/
inductive Value where
  | vnull
  | vundef
  | vbool (b : Bool)
  | vnum (n : Int)
  | vstr (s : String)
  | vdate (t : Int)
  | vfunc (ret : Value)
  | vobj (fields : List (String × Value))
  | varr (elems : List Value)

/-- JS property read `o[k]`: first entry with the key (JS objects never hold
duplicate keys, so first = only). `none` when the key is absent. -/
def getKey : List (String × Value) → String → Option Value
  | [], _ => none
  | p :: rest, k => if p.1 = k then some p.2 else getKey rest k

/-- Whether the object has the key at all (JS `k in o`). -/
def hasKey (fs : List (String × Value)) (k : String) : Bool :=
  fs.any (fun p => p.1 = k)

/-- JS property write `o[k] = v`: update in place when present, append when
absent (insertion order preserved). -/
def setKey : List (String × Value) → String → Value → List (String × Value)
  | [], k, v => [(k, v)]
  | p :: rest, k, v => if p.1 = k then (k, v) :: rest else p :: setKey rest k v

/-- JS object spread `{...a, ...b}`: keys of `a` in order with values
overridden by `b` where `b` also has the key, then the keys only `b` has. -/
def spread (a b : List (String × Value)) : List (String × Value) :=
  a.map (fun p => match getKey b p.1 with | some v => (p.1, v) | none => p)
  ++ b.filter (fun p => !(hasKey a p.1))

/-- A property read as zod sees it: a key whose value is JS `undefined`
counts as missing. -/
def lookupDefined (fs : List (String × Value)) (k : String) : Option Value :=
  match getKey fs k with
  | some .vundef => none
  | o => o

/-! ### zod combinators -/

/-- `z.string()` -/
def parseString : Value → Option Value
  | .vstr s => some (.vstr s)
  | _ => none

/-- `z.boolean()` -/
def parseBool : Value → Option Value
  | .vbool b => some (.vbool b)
  | _ => none

/-- `z.number()` -/
def parseNum : Value → Option Value
  | .vnum n => some (.vnum n)
  | _ => none

/-- `z.literal(s)` for a string literal -/
def parseLit (s : String) : Value → Option Value
  | .vstr t => if t = s then some (.vstr t) else none
  | _ => none

/-- `z.literal(b)` for a boolean literal -/
def parseLitBool (b : Bool) : Value → Option Value
  | .vbool c => if c = b then some (.vbool c) else none
  | _ => none

/-- `z.function()`: parsing only checks the value is a function (zod wraps it
and validates arguments/return at call time; see `invokeChecked`). -/
def parseFunc : Value → Option Value
  | .vfunc r => some (.vfunc r)
  | _ => none

/-- `z.unknown()` / `z.any()` accept every value. -/
def parseUnknown : Value → Option Value := fun v => some v

/-- `A.or(B)` / two-member `z.union`: first schema that succeeds wins. -/
def parseOr (p q : Value → Option Value) (v : Value) : Option Value :=
  match p v with
  | some r => some r
  | none => q v

/-- Calling a function parsed by `z.function().returns(S)`: zod validates the
returned value against `S` and throws when it does not conform. -/
def invokeChecked (retSchema : Value → Option Value) : Value → Option Value
  | .vfunc r => retSchema r
  | _ => none

/-- One key of a `z.object` shape: its name, whether it is required
(`.optional()` and `z.any()`/`z.unknown()` keys are not), and its schema. -/
structure KeySpec where
  key : String
  required : Bool
  parse : Value → Option Value

/-- Parse the declared keys of a `z.object` shape against an input object:
each present key must conform, a missing required key is an error, a missing
optional key is skipped, and unknown keys are stripped from the output. -/
def parseKeys : List KeySpec → List (String × Value) → Option (List (String × Value))
  | [], _ => some []
  | s :: rest, fs =>
    match lookupDefined fs s.key with
    | some v =>
      match s.parse v with
      | some pv =>
        match parseKeys rest fs with
        | some out => some ((s.key, pv) :: out)
        | none => none
      | none => none
    | none => if s.required then none else parseKeys rest fs

/-- `z.object(shape)` -/
def parseObj (specs : List KeySpec) : Value → Option Value
  | .vobj fs =>
    match parseKeys specs fs with
    | some out => some (.vobj out)
    | none => none
  | _ => none

/-- The entries of a `z.record(S)` input, each value validated by `S`. -/
def parseEntries (p : Value → Option Value) : List (String × Value) → Option (List (String × Value))
  | [] => some []
  | kv :: rest =>
    match p kv.2 with
    | some pv =>
      match parseEntries p rest with
      | some out => some ((kv.1, pv) :: out)
      | none => none
    | none => none

/-- `z.record(S)` -/
def parseRecord (p : Value → Option Value) : Value → Option Value
  | .vobj fs =>
    match parseEntries p fs with
    | some out => some (.vobj out)
    | none => none
  | _ => none

/-- The elements of a `z.array(S)` input, each validated by `S`. -/
def parseElems (p : Value → Option Value) : List Value → Option (List Value)
  | [] => some []
  | v :: rest =>
    match p v with
    | some pv =>
      match parseElems p rest with
      | some out => some (pv :: out)
      | none => none
    | none => none

/-- `z.array(S)` -/
def parseArr (p : Value → Option Value) : Value → Option Value
  | .varr xs =>
    match parseElems p xs with
    | some out => some (.varr out)
    | none => none
  | _ => none

/-! ### The field and collection schemas of `types.ts` -/

/-- Shape of `baseFieldSchema`: label, optional, unique, plus the `name` and
`collection` back-references that `defineCollection()` fills in later. -/
def baseFieldSpecs : List KeySpec :=
  [⟨"label", false, parseString⟩,
   ⟨"optional", false, parseBool⟩,
   ⟨"unique", false, parseBool⟩,
   ⟨"name", false, parseString⟩,
   ⟨"collection", false, parseString⟩]

/-- Shape of `booleanFieldSchema = baseFieldSchema.extend({type: z.literal('boolean'), default: z.boolean().optional()})`. -/
def booleanFieldSpecs : List KeySpec :=
  baseFieldSpecs ++
    [⟨"type", true, parseLit "boolean"⟩,
     ⟨"default", false, parseBool⟩]

/-- `booleanFieldSchema` -/
def booleanFieldSchema : Value → Option Value :=
  parseObj booleanFieldSpecs

/-- Shape of `numberFieldSchema`: type literal 'number', optional numeric
default, optional `references` function, optional `primaryKey`. -/
def numberFieldSpecs : List KeySpec :=
  baseFieldSpecs ++
    [⟨"type", true, parseLit "number"⟩,
     ⟨"default", false, parseNum⟩,
     ⟨"references", false, parseFunc⟩,
     ⟨"primaryKey", false, parseBool⟩]

/-- `numberFieldSchema` -/
def numberFieldSchema : Value → Option Value :=
  parseObj numberFieldSpecs

/-- Shape of `textFieldSchema`: type literal 'text', optional multiline,
optional string default, optional `references` function, optional
`primaryKey`. -/
def textFieldSpecs : List KeySpec :=
  baseFieldSpecs ++
    [⟨"type", true, parseLit "text"⟩,
     ⟨"multiline", false, parseBool⟩,
     ⟨"default", false, parseString⟩,
     ⟨"references", false, parseFunc⟩,
     ⟨"primaryKey", false, parseBool⟩]

/-- `textFieldSchema` -/
def textFieldSchema : Value → Option Value :=
  parseObj textFieldSpecs

/-- Read exactly `n` decimal digits, most significant first. -/
def readDigits : Nat → Nat → List Char → Option (Nat × List Char)
  | 0, acc, cs => some (acc, cs)
  | n + 1, acc, c :: cs =>
    if c.isDigit then readDigits n (acc * 10 + (c.toNat - 48)) cs else none
  | _ + 1, _, [] => none

/-- The year of the ES Date Time String Format: four digits, or an expanded
signed six-digit year (the form `-000000` is forbidden). -/
def parseYearChars : List Char → Option (Int × List Char)
  | '+' :: cs =>
    match readDigits 6 0 cs with
    | some (y, rest) => some ((y : Int), rest)
    | none => none
  | '-' :: cs =>
    match readDigits 6 0 cs with
    | some (y, rest) => if y = 0 then none else some (-(y : Int), rest)
    | none => none
  | cs =>
    match readDigits 4 0 cs with
    | some (y, rest) => some ((y : Int), rest)
    | none => none

/-- Optional `-MM` and `-DD` of the format (both default to 01). -/
def parseMonthDayChars : List Char → Option (Nat × Nat × List Char)
  | '-' :: cs =>
    match readDigits 2 0 cs with
    | some (m, '-' :: cs2) =>
      match readDigits 2 0 cs2 with
      | some (d, rest) => some (m, d, rest)
      | none => none
    | some (m, rest) => some (m, 1, rest)
    | none => none
  | cs => some (1, 1, cs)

/-- The time of the format after the literal `T`: `HH:mm`, optionally `:ss`,
optionally `.sss`. -/
def parseTimeChars (cs : List Char) : Option (Nat × Nat × Nat × Nat × List Char) :=
  match readDigits 2 0 cs with
  | some (hh, ':' :: cs2) =>
    match readDigits 2 0 cs2 with
    | some (mi, ':' :: cs3) =>
      match readDigits 2 0 cs3 with
      | some (ss, '.' :: cs4) =>
        match readDigits 3 0 cs4 with
        | some (ms, rest) => some (hh, mi, ss, ms, rest)
        | none => none
      | some (ss, rest) => some (hh, mi, ss, 0, rest)
      | none => none
    | some (mi, rest) => some (hh, mi, 0, 0, rest)
    | none => none
  | _ => none

/-- The optional trailing time-zone offset of the format, in minutes:
nothing, `Z`, or `±HH:mm` consuming the whole remainder. -/
def parseOffsetChars : List Char → Option Int
  | [] => some 0
  | ['Z'] => some 0
  | '+' :: cs =>
    match readDigits 2 0 cs with
    | some (oh, ':' :: cs2) =>
      match readDigits 2 0 cs2 with
      | some (om, []) =>
        if oh ≤ 23 ∧ om ≤ 59 then some ((oh * 60 + om : Nat) : Int) else none
      | _ => none
    | _ => none
  | '-' :: cs =>
    match readDigits 2 0 cs with
    | some (oh, ':' :: cs2) =>
      match readDigits 2 0 cs2 with
      | some (om, []) =>
        if oh ≤ 23 ∧ om ≤ 59 then some (-((oh * 60 + om : Nat) : Int)) else none
      | _ => none
    | _ => none
  | _ => none

/-- Proleptic-Gregorian leap year with astronomical year numbering, as ES
`MakeDay` uses. -/
def isLeap (y : Int) : Bool :=
  (y % 4 == 0 && y % 100 != 0) || y % 400 == 0

/-- Length of a month in the proleptic Gregorian calendar. -/
def daysInMonth (y : Int) (m : Nat) : Nat :=
  if m == 2 then (if isLeap y then 29 else 28)
  else if m == 4 || m == 6 || m == 9 || m == 11 then 30
  else 31

/-- Days from the Unix epoch to the civil date `y-m-d`, via the era
decomposition of the proleptic Gregorian calendar shifted by 1000 eras
(400000 years) so all intermediate arithmetic stays in `Nat`. -/
def daysFromCivil (y : Int) (m d : Nat) : Int :=
  let yAdj := y - (if m ≤ 2 then 1 else 0)
  let yN := (yAdj + 400000).toNat
  let era := yN / 400
  let yoe := yN % 400
  let mp := if m > 2 then m - 3 else m + 9
  let doy := (153 * mp + 2) / 5 + d - 1
  let doe := yoe * 365 + yoe / 4 - yoe / 100 + doy
  ((era * 146097 + doe : Nat) : Int) - 719468 - 146097000

/-- The time value (ms since the epoch) of `new Date(string)` for the ES
Date Time String Format `YYYY[-MM[-DD]][THH:mm[:ss[.sss]][Z|±HH:mm]]`,
including the real-calendar field validation engines apply and the
±8.64e15 ms time clip (beyond which the result is an Invalid Date).
Date-time forms without an offset are local time; the host time zone is
modelled as UTC. Strings outside the mandated format — for which ES permits
implementation-specific fallback parsing — are modelled as not coercible. -/
def parseISODate (s : String) : Option Int := do
  let (y, cs) ← parseYearChars s.data
  let (m, d, cs2) ← parseMonthDayChars cs
  let (hh, mi, ss, ms, cs3) ←
    (match cs2 with
     | [] => some (0, 0, 0, 0, ([] : List Char))
     | 'T' :: cst => parseTimeChars cst
     | _ => none)
  let off ← parseOffsetChars cs3
  if y.natAbs > 280000 then none
  else if 1 ≤ m ∧ m ≤ 12 ∧ 1 ≤ d ∧ d ≤ daysInMonth y m ∧
      (hh ≤ 23 ∨ (hh = 24 ∧ mi = 0 ∧ ss = 0 ∧ ms = 0)) ∧ mi ≤ 59 ∧ ss ≤ 59 then
    let t := daysFromCivil y m d * 86400000 +
      ((hh * 3600000 + mi * 60000 + ss * 1000 + ms : Nat) : Int) - off * 60000
    if t.natAbs ≤ 8640000000000000 then some t else none
  else none

/-- Model of JS date coercion `new Date(x)` as `z.coerce.date()` performs
it. A `Date` carries its (range-clipped) time value; numbers and ES-format
strings are time-clipped to ±8.64e15 ms, beyond which `new Date` yields an
Invalid Date; `true`/`false` coerce through `ToNumber` to 1/0 and `null` to
the epoch; `undefined`, functions, and the object/array `ToPrimitive`
chains are modelled as not coercible. -/
def jsDateCoerce : Value → Option Int
  | .vdate t => if t.natAbs ≤ 8640000000000000 then some t else none
  | .vnum n => if n.natAbs ≤ 8640000000000000 then some n else none
  | .vstr s => parseISODate s
  | .vbool b => some (if b then 1 else 0)
  | .vnull => some 0
  | _ => none

/-- Zero-padded decimal digits. -/
def padNum (w n : Nat) : String :=
  let s := toString n
  String.mk (List.replicate (w - s.length) '0') ++ s

/-- JS `Date.prototype.toISOString` on a (valid) time value:
`YYYY-MM-DDTHH:mm:ss.sssZ` in UTC, with the expanded signed six-digit year
form outside 0000..9999. Civil date recovered through the same shifted era
decomposition as `daysFromCivil`. -/
def toISOString (t : Int) : String :=
  let tn := (t + 146097000 * 86400000).toNat
  let daysN := tn / 86400000
  let msOfDay := tn % 86400000
  let zN := daysN + 719468
  let era := zN / 146097
  let doe := zN % 146097
  let yoe := (doe - doe / 1460 + doe / 36524 - doe / 146096) / 365
  let doy := doe - (365 * yoe + yoe / 4 - yoe / 100)
  let mp := (5 * doy + 2) / 153
  let d := doy - (153 * mp + 2) / 5 + 1
  let m := if mp < 10 then mp + 3 else mp - 9
  let y : Int := ((era * 400 + yoe : Nat) : Int) - 400000 + (if m ≤ 2 then 1 else 0)
  let yearStr :=
    if 0 ≤ y ∧ y ≤ 9999 then padNum 4 y.toNat
    else if y < 0 then "-" ++ padNum 6 y.natAbs
    else "+" ++ padNum 6 y.toNat
  yearStr ++ "-" ++ padNum 2 m ++ "-" ++ padNum 2 d ++ "T" ++
    padNum 2 (msOfDay / 3600000) ++ ":" ++ padNum 2 (msOfDay % 3600000 / 60000) ++ ":" ++
    padNum 2 (msOfDay % 60000 / 1000) ++ "." ++ padNum 3 (msOfDay % 1000) ++ "Z"

/-- The `default` member of `dateFieldSchema`:
`z.union([z.literal('now'), z.coerce.date().transform(d => d.toISOString())])`. -/
def parseDateDefault (v : Value) : Option Value :=
  match parseLit "now" v with
  | some r => some r
  | none =>
    match jsDateCoerce v with
    | some t => some (.vstr (toISOString t))
    | none => none

/-- Shape of `dateFieldSchema`: type literal 'date', default either the
literal 'now' or a date-coercible value transformed to its ISO string. -/
def dateFieldSpecs : List KeySpec :=
  baseFieldSpecs ++
    [⟨"type", true, parseLit "date"⟩,
     ⟨"default", false, parseDateDefault⟩]

/-- `dateFieldSchema` -/
def dateFieldSchema : Value → Option Value :=
  parseObj dateFieldSpecs

/-- Shape of `jsonFieldSchema`: type literal 'json', default `z.unknown().optional()`. -/
def jsonFieldSpecs : List KeySpec :=
  baseFieldSpecs ++
    [⟨"type", true, parseLit "json"⟩,
     ⟨"default", false, parseUnknown⟩]

/-- `jsonFieldSchema` -/
def jsonFieldSchema : Value → Option Value :=
  parseObj jsonFieldSpecs

/-- `fieldSchema = z.union([boolean, number, text, date, json])` -/
def fieldSchema : Value → Option Value :=
  parseOr booleanFieldSchema (parseOr numberFieldSchema
    (parseOr textFieldSchema (parseOr dateFieldSchema jsonFieldSchema)))

/-- `referenceableFieldSchema = z.union([textFieldSchema, numberFieldSchema])` -/
def referenceableFieldSchema : Value → Option Value :=
  parseOr textFieldSchema numberFieldSchema

/-- `fieldsSchema = z.record(fieldSchema)` -/
def fieldsSchema : Value → Option Value :=
  parseRecord fieldSchema

/-- `indexSchema = z.object({on: z.string().or(z.array(z.string())), unique: z.boolean().optional()})` -/
def indexSchema : Value → Option Value :=
  parseObj
    [⟨"on", true, parseOr parseString (parseArr parseString)⟩,
     ⟨"unique", false, parseBool⟩]

/-- `foreignKeysSchema`: required `fields` (string or string array) and a
required `references` function. -/
def foreignKeysSchema : Value → Option Value :=
  parseObj
    [⟨"fields", true, parseOr parseString (parseArr parseString)⟩,
     ⟨"references", true, parseFunc⟩]

/-- Shape of `baseCollectionSchema`: required `fields` record, optional
`indexes` record and `foreignKeys` array, `table: z.any()` and an optional
`_setMeta` function. -/
def baseCollectionSpecs : List KeySpec :=
  [⟨"fields", true, fieldsSchema⟩,
   ⟨"indexes", false, parseRecord indexSchema⟩,
   ⟨"foreignKeys", false, parseArr foreignKeysSchema⟩,
   ⟨"table", false, parseUnknown⟩,
   ⟨"_setMeta", false, parseFunc⟩]

/-- Shape of `readableCollectionSchema = baseCollectionSchema.extend({writable: z.literal(false)})`. -/
def readableCollectionSpecs : List KeySpec :=
  baseCollectionSpecs ++ [⟨"writable", true, parseLitBool false⟩]

/-- `readableCollectionSchema` -/
def readableCollectionSchema : Value → Option Value :=
  parseObj readableCollectionSpecs

/-- Shape of `writableCollectionSchema = baseCollectionSchema.extend({writable: z.literal(true)})`. -/
def writableCollectionSpecs : List KeySpec :=
  baseCollectionSpecs ++ [⟨"writable", true, parseLitBool true⟩]

/-- `writableCollectionSchema` -/
def writableCollectionSchema : Value → Option Value :=
  parseObj writableCollectionSpecs

/-- `collectionSchema = z.union([readableCollectionSchema, writableCollectionSchema])` -/
def collectionSchema : Value → Option Value :=
  parseOr readableCollectionSchema writableCollectionSchema

/-- `collectionsSchema = z.record(collectionSchema)` -/
def collectionsSchema : Value → Option Value :=
  parseRecord collectionSchema

/-! ### `defineCollection` of `types.ts` (with `_setMeta`) -/

/-- A drizzle table object, observed only through `getTableName`. -/
structure Table where
  name : String

/-- drizzle's `getTableName`. -/
def getTableName (t : Table) : String := t.name

namespace Types

/-- The user-supplied collection config: the `fields` record (each field a JS
object) plus every other key the user passed (`indexes`, `foreignKeys`,
`data`/`seed`, ...), kept verbatim. -/
structure CollectionConfig where
  fields : List (String × List (String × Value))
  rest : List (String × Value)

/-- A collection after `defineCollection`: the (possibly mutated) fields, the
untouched remaining config, the `writable` tag, and the deferred table
binding (`none` models the initial `null`). -/
structure ResolvedCollectionConfig where
  fields : List (String × List (String × Value))
  rest : List (String × Value)
  writable : Bool
  table : Option Table

/-- `baseDefineCollection`: stores each field's record key into the field's
own `name` property and returns the config with the `writable` tag and a
table binding that is still `null`. -/
def baseDefineCollection (userConfig : CollectionConfig) (writable : Bool) :
    ResolvedCollectionConfig :=
  { fields := userConfig.fields.map (fun kv => (kv.1, setKey kv.2 "name" (.vstr kv.1)))
  , rest := userConfig.rest
  , writable := writable
  , table := none }

/-- `defineCollection` of `types.ts`. -/
def defineCollection (userConfig : CollectionConfig) : ResolvedCollectionConfig :=
  baseDefineCollection userConfig false

/-- `defineWritableCollection` of `types.ts`. -/
def defineWritableCollection (userConfig : CollectionConfig) : ResolvedCollectionConfig :=
  baseDefineCollection userConfig true

/-- The private `_setMeta` closure: binds the table and writes
`getTableName(table)` into every field's `collection` property. -/
def setMeta (c : ResolvedCollectionConfig) (t : Table) : ResolvedCollectionConfig :=
  { c with
    table := some t
  , fields := c.fields.map
      (fun kv => (kv.1, setKey kv.2 "collection" (.vstr (getTableName t)))) }

end Types

/-! ### `config.ts` (`defineCollection` without `_setMeta`, `field.*` with defaults) -/

namespace Config

/-- `defineCollection` of `config.ts`: `{...userConfig, writable: false}`. -/
def defineCollection (userConfig : List (String × Value)) : List (String × Value) :=
  spread userConfig [("writable", .vbool false)]

/-- `defineWritableCollection` of `config.ts`: `{...userConfig, writable: true}`. -/
def defineWritableCollection (userConfig : List (String × Value)) : List (String × Value) :=
  spread userConfig [("writable", .vbool true)]

/-- Shape of `dbConfigSchema` of `config.ts`: optional `studio` boolean and
optional `collections` record. -/
def dbConfigSpecs : List KeySpec :=
  [⟨"studio", false, parseBool⟩,
   ⟨"collections", false, collectionsSchema⟩]

/-- `dbConfigSchema` of `config.ts`. -/
def dbConfigSchema : Value → Option Value :=
  parseObj dbConfigSpecs

/-- `baseDefaults` applied by every `field.*` constructor in `config.ts`. -/
def baseDefaults : List (String × Value) :=
  [("optional", .vbool false),
   ("unique", .vbool false),
   ("label", .vundef),
   ("default", .vundef)]

/-- `field.number(opts)`: `{type: 'number', ...baseDefaults, ...opts}`. -/
def field.number (opts : List (String × Value)) : List (String × Value) :=
  spread (spread [("type", .vstr "number")] baseDefaults) opts

/-- `field.boolean(opts)`: `{type: 'boolean', ...baseDefaults, ...opts}`. -/
def field.boolean (opts : List (String × Value)) : List (String × Value) :=
  spread (spread [("type", .vstr "boolean")] baseDefaults) opts

/-- `field.text(opts)`: `{type: 'text', multiline: false, ...baseDefaults, ...opts}`. -/
def field.text (opts : List (String × Value)) : List (String × Value) :=
  spread (spread [("type", .vstr "text"), ("multiline", .vbool false)] baseDefaults) opts

/-- `field.date(opts)`: `{type: 'date', ...baseDefaults, ...opts}`. -/
def field.date (opts : List (String × Value)) : List (String × Value) :=
  spread (spread [("type", .vstr "date")] baseDefaults) opts

/-- `field.json(opts)`: `{type: 'json', ...baseDefaults, ...opts}`. -/
def field.json (opts : List (String × Value)) : List (String × Value) :=
  spread (spread [("type", .vstr "json")] baseDefaults) opts

end Config

/-! ### Lemmas about object reads, writes and spreads -/

theorem getKey_setKey_self (fs : List (String × Value)) (k : String) (v : Value) :
    getKey (setKey fs k v) k = some v := by
  induction fs with
  | nil => simp [setKey, getKey]
  | cons p rest ih =>
    by_cases h : p.1 = k
    · simp [setKey, h, getKey]
    · simp [setKey, h, getKey, ih]

theorem getKey_setKey_other (fs : List (String × Value)) (k k' : String) (v : Value)
    (h : k' ≠ k) : getKey (setKey fs k v) k' = getKey fs k' := by
  induction fs with
  | nil => simp [setKey, getKey, Ne.symm h]
  | cons p rest ih =>
    by_cases hp : p.1 = k
    · subst hp
      simp [setKey, getKey, Ne.symm h]
    · simp [setKey, hp, getKey, ih]

theorem getKey_none_iff (fs : List (String × Value)) (k : String) :
    getKey fs k = none ↔ hasKey fs k = false := by
  induction fs with
  | nil => simp [getKey, hasKey]
  | cons p rest ih =>
    by_cases h : p.1 = k <;> simp [getKey, hasKey, h] <;> simp [hasKey] at ih <;> exact ih

theorem getKey_append (l1 l2 : List (String × Value)) (k : String) :
    getKey (l1 ++ l2) k =
      match getKey l1 k with
      | some v => some v
      | none => getKey l2 k := by
  induction l1 with
  | nil => simp [getKey]
  | cons p rest ih =>
    by_cases h : p.1 = k <;> simp [getKey, h, ih]

theorem getKey_map_override (a b : List (String × Value)) (k : String) :
    getKey (a.map (fun p => match getKey b p.1 with | some v => (p.1, v) | none => p)) k =
      match getKey a k, getKey b k with
      | some _, some v => some v
      | some v, none => some v
      | none, _ => none := by
  induction a with
  | nil => simp [getKey]
  | cons p rest ih =>
    by_cases h : p.1 = k
    · subst h
      cases hb : getKey b p.1 <;> simp [getKey, hb]
    · cases hb : getKey b p.1 <;> simp only [List.map_cons] <;>
        rw [hb] <;> simp [getKey, h] <;> exact ih

theorem getKey_filter_out (a b : List (String × Value)) (k : String)
    (h : hasKey a k = false) :
    getKey (b.filter (fun p => !(hasKey a p.1))) k = getKey b k := by
  induction b with
  | nil => simp [getKey]
  | cons q rest ih =>
    rw [List.filter_cons]
    by_cases hq : q.1 = k
    · rw [hq, h]
      simp [getKey, hq]
    · cases hk : hasKey a q.1 <;> simp [hk, getKey, hq, ih]

theorem getKey_spread (a b : List (String × Value)) (k : String) :
    getKey (spread a b) k =
      match getKey b k with
      | some v => some v
      | none => getKey a k := by
  unfold spread
  rw [getKey_append, getKey_map_override]
  cases ha : getKey a k <;> cases hb : getKey b k <;> simp
  · rw [getKey_filter_out a b k ((getKey_none_iff a k).mp ha), hb]
  · rw [getKey_filter_out a b k ((getKey_none_iff a k).mp ha), hb]

/-! ### Lemmas about `z.object` parsing -/

theorem parseKeys_getKey (specs : List KeySpec) (fs out : List (String × Value))
    (h : parseKeys specs fs = some out) (k : String) :
    getKey out k =
      match lookupDefined fs k with
      | none => none
      | some v =>
        match specs.find? (fun s => s.key = k) with
        | none => none
        | some s => s.parse v := by
  induction specs generalizing out with
  | nil =>
    simp only [parseKeys, Option.some.injEq] at h
    subst h
    cases hl : lookupDefined fs k <;> simp [getKey]
  | cons s rest ih =>
    cases hl : lookupDefined fs s.key with
    | some v =>
      cases hp : s.parse v with
      | some pv =>
        cases hr : parseKeys rest fs with
        | some out' =>
          simp only [parseKeys, hl, hp, hr, Option.some.injEq] at h
          subst h
          by_cases hk : s.key = k
          · subst hk
            simp [getKey, List.find?, hl, hp]
          · rw [show getKey ((s.key, pv) :: out') k = getKey out' k by simp [getKey, hk]]
            rw [ih out' hr]
            cases hlk : lookupDefined fs k <;> simp [List.find?, hk]
        | none => simp [parseKeys, hl, hp, hr] at h
      | none => simp [parseKeys, hl, hp] at h
    | none =>
      cases hreq : s.required with
      | true => simp [parseKeys, hl, hreq] at h
      | false =>
        simp only [parseKeys, hl, hreq] at h
        simp only [Bool.false_eq_true, if_false] at h
        rw [ih out h]
        by_cases hk : s.key = k
        · subst hk
          rw [hl]
        · cases hlk : lookupDefined fs k <;> simp [List.find?, hk]

theorem parseKeys_required (specs : List KeySpec) (fs out : List (String × Value))
    (h : parseKeys specs fs = some out) (s : KeySpec) (hs : s ∈ specs)
    (hr : s.required = true) :
    ∃ v pv, lookupDefined fs s.key = some v ∧ s.parse v = some pv := by
  induction specs generalizing out with
  | nil => cases hs
  | cons s₀ rest ih =>
    cases hl : lookupDefined fs s₀.key with
    | some v =>
      cases hp : s₀.parse v with
      | some pv =>
        cases hrest : parseKeys rest fs with
        | some out' =>
          cases hs with
          | head => exact ⟨v, pv, hl, hp⟩
          | tail _ hmem => exact ih out' hrest hmem
        | none => simp [parseKeys, hl, hp, hrest] at h
      | none => simp [parseKeys, hl, hp] at h
    | none =>
      cases hreq : s₀.required with
      | true => simp [parseKeys, hl, hreq] at h
      | false =>
        simp only [parseKeys, hl, hreq] at h
        simp only [Bool.false_eq_true, if_false] at h
        cases hs with
        | head => rw [hreq] at hr; cases hr
        | tail _ hmem => exact ih out h hmem

theorem parseKeys_fail (specs : List KeySpec) (fs : List (String × Value))
    (s : KeySpec) (hs : s ∈ specs) (v : Value)
    (hl : lookupDefined fs s.key = some v) (hp : s.parse v = none) :
    parseKeys specs fs = none := by
  induction specs with
  | nil => cases hs
  | cons s₀ rest ih =>
    cases hs with
    | head => simp [parseKeys, hl, hp]
    | tail _ hmem =>
      cases hl₀ : lookupDefined fs s₀.key with
      | some v₀ =>
        cases hp₀ : s₀.parse v₀ with
        | some pv₀ => simp [parseKeys, hl₀, hp₀, ih hmem]
        | none => simp [parseKeys, hl₀, hp₀]
      | none =>
        cases hreq : s₀.required with
        | true => simp [parseKeys, hl₀, hreq]
        | false => simp [parseKeys, hl₀, hreq, ih hmem]

theorem parseKeys_missing (specs : List KeySpec) (fs : List (String × Value))
    (s : KeySpec) (hs : s ∈ specs)
    (hl : lookupDefined fs s.key = none) (hr : s.required = true) :
    parseKeys specs fs = none := by
  induction specs with
  | nil => cases hs
  | cons s₀ rest ih =>
    cases hs with
    | head => simp [parseKeys, hl, hr]
    | tail _ hmem =>
      cases hl₀ : lookupDefined fs s₀.key with
      | some v₀ =>
        cases hp₀ : s₀.parse v₀ with
        | some pv₀ => simp [parseKeys, hl₀, hp₀, ih hmem]
        | none => simp [parseKeys, hl₀, hp₀]
      | none =>
        cases hreq : s₀.required with
        | true => simp [parseKeys, hl₀, hreq]
        | false => simp [parseKeys, hl₀, hreq, ih hmem]

theorem parseObj_elim (specs : List KeySpec) (v o : Value)
    (h : parseObj specs v = some o) :
    ∃ fs out, v = .vobj fs ∧ o = .vobj out ∧ parseKeys specs fs = some out := by
  cases v with
  | vobj fs =>
    simp only [parseObj] at h
    cases hk : parseKeys specs fs with
    | some out => rw [hk] at h; cases h; exact ⟨fs, out, rfl, rfl, hk⟩
    | none => rw [hk] at h; cases h
  | vnull => cases h
  | vundef => cases h
  | vbool b => cases h
  | vnum n => cases h
  | vstr s => cases h
  | vdate t => cases h
  | vfunc r => cases h
  | varr xs => cases h

theorem parseEntries_fail (p : Value → Option Value) (fs : List (String × Value))
    (k : String) (c : Value) (hm : (k, c) ∈ fs) (hp : p c = none) :
    parseEntries p fs = none := by
  induction fs with
  | nil => cases hm
  | cons kv rest ih =>
    cases hm with
    | head => simp [parseEntries, hp]
    | tail _ hmem =>
      cases hp₀ : p kv.2 with
      | some pv => simp [parseEntries, hp₀, ih hmem]
      | none => simp [parseEntries, hp₀]

/-! ### Helper lemmas about literal and union parsing -/

theorem parseLit_eq_vstr (s : String) (v pv : Value) (h : parseLit s v = some pv) :
    v = .vstr s := by
  cases v <;> simp only [parseLit] at h
  case vstr t =>
    by_cases ht : t = s
    · rw [ht]
    · rw [if_neg ht] at h; cases h
  all_goals cases h

theorem parseLit_none_of_ne (s : String) (v : Value) (h : v ≠ .vstr s) :
    parseLit s v = none := by
  cases v <;> simp only [parseLit]
  case vstr t =>
    rw [if_neg (fun ht => h (by rw [ht]))]

theorem parseLitBool_eq_vbool (b : Bool) (v pv : Value) (h : parseLitBool b v = some pv) :
    v = .vbool b := by
  cases v <;> simp only [parseLitBool] at h
  case vbool c =>
    by_cases hc : c = b
    · rw [hc]
    · rw [if_neg hc] at h; cases h
  all_goals cases h

theorem parseOr_none (p q : Value → Option Value) (v : Value)
    (hp : p v = none) (hq : q v = none) : parseOr p q v = none := by
  simp [parseOr, hp, hq]

theorem parseOr_isSome_iff (p q : Value → Option Value) (v : Value) :
    (parseOr p q v).isSome = true ↔ (p v).isSome = true ∨ (q v).isSome = true := by
  cases hp : p v <;> simp [parseOr, hp]

/-- A `z.object` schema with a required `type: z.literal(tag)` member yields,
on success, an object input whose type tag is exactly that literal. -/
theorem parseObj_type_some (specs : List KeySpec) (tag : String) (v o : Value)
    (hmem : KeySpec.mk "type" true (parseLit tag) ∈ specs)
    (h : parseObj specs v = some o) :
    ∃ fs, v = .vobj fs ∧ lookupDefined fs "type" = some (.vstr tag) := by
  obtain ⟨fs, out, hv, ho, hk⟩ := parseObj_elim specs v o h
  obtain ⟨w, pw, hlw, hpw⟩ := parseKeys_required specs fs out hk _ hmem rfl
  exact ⟨fs, hv, by rw [hlw, parseLit_eq_vstr tag w pw hpw]⟩

/-- A `z.object` schema with a required `type: z.literal(tag)` member rejects
every object whose type tag is a different string. -/
theorem parseObj_type_fail (specs : List KeySpec) (tag : String)
    (fs : List (String × Value)) (t : String)
    (hmem : KeySpec.mk "type" true (parseLit tag) ∈ specs)
    (hl : lookupDefined fs "type" = some (.vstr t)) (hne : t ≠ tag) :
    parseObj specs (.vobj fs) = none := by
  simp only [parseObj]
  rw [parseKeys_fail specs fs _ hmem _ hl (by simp [parseLit, hne])]

theorem baseDefine_field_name (u : Types.CollectionConfig) (w : Bool)
    (k : String) (f : List (String × Value))
    (h : (k, f) ∈ (Types.baseDefineCollection u w).fields) :
    getKey f "name" = some (.vstr k) := by
  simp only [Types.baseDefineCollection, List.mem_map] at h
  obtain ⟨kv, hkv, heq⟩ := h
  injection heq with h1 h2
  subst h1
  subst h2
  exact getKey_setKey_self _ _ _

theorem map_fst_pairmap {α β γ : Type} (l : List (α × β)) (g : α × β → γ) :
    (l.map (fun kv => (kv.1, g kv))).map Prod.fst = l.map Prod.fst := by
  induction l with
  | nil => rfl
  | cons kv rest ih => simp [ih]

/-! ### The claims -/

/-- C1: For every collection configuration passed to `defineCollection` or
`defineWritableCollection`, the returned collection's fields record maps
every key to a field whose `name` property equals that key — the field-name
back-reference is written into each field at definition time. -/
theorem c1_field_name_backreference (u : Types.CollectionConfig)
    (k : String) (f : List (String × Value))
    (h : (k, f) ∈ (Types.defineCollection u).fields ∨
         (k, f) ∈ (Types.defineWritableCollection u).fields) :
    getKey f "name" = some (.vstr k) := by
  cases h with
  | inl h => exact baseDefine_field_name u false k f h
  | inr h => exact baseDefine_field_name u true k f h

/-- Witness for C1 at a one-field collection `{id: {type: 'number'}}`. -/
theorem c1_witness :
    getKey [("type", Value.vstr "number"), ("name", Value.vstr "id")] "name"
      = some (Value.vstr "id") :=
  c1_field_name_backreference ⟨[("id", [("type", Value.vstr "number")])], []⟩
    "id" _ (Or.inl (List.Mem.head _))

/-- C2: the table binding is deferred — after `_setMeta` runs with a table,
the collection's `table` property is exactly that table and every field's
`collection` property equals the table's name (`getTableName`). -/
theorem c2_setMeta_binds_table (u : Types.CollectionConfig) (w : Bool) (t : Table) :
    (Types.setMeta (Types.baseDefineCollection u w) t).table = some t ∧
    ∀ k f, (k, f) ∈ (Types.setMeta (Types.baseDefineCollection u w) t).fields →
      getKey f "collection" = some (.vstr (getTableName t)) := by
  constructor
  · rfl
  · intro k f h
    simp only [Types.setMeta, List.mem_map] at h
    obtain ⟨kv, hkv, heq⟩ := h
    injection heq with h1 h2
    subst h1
    subst h2
    exact getKey_setKey_self _ _ _

/-- Witness for C2: binding the table named `authors` to a one-field
collection sets the table and writes `authors` into the field. -/
theorem c2_witness :
    (Types.setMeta
        (Types.baseDefineCollection ⟨[("id", [("type", Value.vstr "number")])], []⟩ true)
        ⟨"authors"⟩).table = some ⟨"authors"⟩ ∧
    getKey [("type", Value.vstr "number"), ("name", Value.vstr "id"),
        ("collection", Value.vstr "authors")] "collection"
      = some (Value.vstr "authors") :=
  ⟨(c2_setMeta_binds_table ⟨[("id", [("type", Value.vstr "number")])], []⟩ true ⟨"authors"⟩).1,
   (c2_setMeta_binds_table ⟨[("id", [("type", Value.vstr "number")])], []⟩ true ⟨"authors"⟩).2
     "id" _ (List.Mem.head _)⟩

/-- C10: before `_setMeta` the table is `null` and no field has a
`collection` property (provided, as the constructors guarantee, the user did
not set one); `_setMeta` changes only the table binding and each field's
`collection` property — the `writable` tag, the remaining config
(`indexes`, `foreignKeys`, data/seed), the field record keys, and every
other field property (name, type, default, ...) are unchanged. -/
theorem c10_setMeta_frame (u : Types.CollectionConfig) (w : Bool) (t : Table)
    (hnc : ∀ k f, (k, f) ∈ u.fields → getKey f "collection" = none) :
    ((Types.baseDefineCollection u w).table = none ∧
     (∀ k f, (k, f) ∈ (Types.baseDefineCollection u w).fields →
        getKey f "collection" = none)) ∧
    ((Types.setMeta (Types.baseDefineCollection u w) t).writable
        = (Types.baseDefineCollection u w).writable ∧
     (Types.setMeta (Types.baseDefineCollection u w) t).rest
        = (Types.baseDefineCollection u w).rest ∧
     (Types.setMeta (Types.baseDefineCollection u w) t).fields.map Prod.fst
        = (Types.baseDefineCollection u w).fields.map Prod.fst ∧
     (∀ k f, (k, f) ∈ (Types.baseDefineCollection u w).fields →
        (k, setKey f "collection" (.vstr (getTableName t)))
            ∈ (Types.setMeta (Types.baseDefineCollection u w) t).fields ∧
        ∀ k', k' ≠ "collection" →
          getKey (setKey f "collection" (.vstr (getTableName t))) k'
            = getKey f k')) := by
  refine ⟨⟨rfl, ?_⟩, rfl, rfl, ?_, ?_⟩
  · intro k f h
    simp only [Types.baseDefineCollection, List.mem_map] at h
    obtain ⟨kv, hkv, heq⟩ := h
    injection heq with h1 h2
    subst h1
    subst h2
    rw [getKey_setKey_other _ _ _ _ (by decide)]
    exact hnc kv.1 kv.2 hkv
  · simp only [Types.setMeta]
    exact map_fst_pairmap _ _
  · intro k f h
    constructor
    · simp only [Types.setMeta]
      exact List.mem_map.mpr ⟨(k, f), h, rfl⟩
    · intro k' hk'
      exact getKey_setKey_other _ _ _ _ hk'

/-- Witness for C10 at a one-field collection and the table `posts`. -/
theorem c10_witness :
    (Types.baseDefineCollection
        ⟨[("id", [("type", Value.vstr "number")])], [("indexes", Value.vobj [])]⟩
        false).table = none ∧
    (Types.setMeta
        (Types.baseDefineCollection
          ⟨[("id", [("type", Value.vstr "number")])], [("indexes", Value.vobj [])]⟩
          false)
        ⟨"posts"⟩).rest
      = (Types.baseDefineCollection
          ⟨[("id", [("type", Value.vstr "number")])], [("indexes", Value.vobj [])]⟩
          false).rest :=
  ⟨(c10_setMeta_frame
      ⟨[("id", [("type", Value.vstr "number")])], [("indexes", Value.vobj [])]⟩
      false ⟨"posts"⟩
      (by intro k f h; cases h with
          | head => rfl
          | tail _ h2 => cases h2)).1.1,
   (c10_setMeta_frame
      ⟨[("id", [("type", Value.vstr "number")])], [("indexes", Value.vobj [])]⟩
      false ⟨"posts"⟩
      (by intro k f h; cases h with
          | head => rfl
          | tail _ h2 => cases h2)).2.2.1⟩

/-- C5: `defineCollection` tags `writable: false`, `defineWritableCollection`
tags `writable: true`, and every other user-supplied configuration key
(fields, indexes, foreignKeys, data/seed) is carried over into the result
unchanged — for the `config.ts` definitions as object spreads, and for the
`types.ts` definitions through the resolved-collection record. -/
theorem c5_writable_tags (u : List (String × Value)) (tu : Types.CollectionConfig) :
    getKey (Config.defineCollection u) "writable" = some (.vbool false) ∧
    getKey (Config.defineWritableCollection u) "writable" = some (.vbool true) ∧
    (∀ k, k ≠ "writable" → getKey (Config.defineCollection u) k = getKey u k) ∧
    (∀ k, k ≠ "writable" → getKey (Config.defineWritableCollection u) k = getKey u k) ∧
    (Types.defineCollection tu).writable = false ∧
    (Types.defineWritableCollection tu).writable = true ∧
    (Types.defineCollection tu).rest = tu.rest ∧
    (Types.defineWritableCollection tu).rest = tu.rest ∧
    (Types.defineWritableCollection tu).fields.map Prod.fst = tu.fields.map Prod.fst ∧
    (∀ k f, (k, f) ∈ tu.fields →
       (k, setKey f "name" (.vstr k)) ∈ (Types.defineWritableCollection tu).fields ∧
       ∀ k', k' ≠ "name" → getKey (setKey f "name" (.vstr k)) k' = getKey f k') := by
  refine ⟨?_, ?_, ?_, ?_, rfl, rfl, rfl, rfl, ?_, ?_⟩
  · rw [Config.defineCollection, getKey_spread]
    rfl
  · rw [Config.defineWritableCollection, getKey_spread]
    rfl
  · intro k hk
    rw [Config.defineCollection, getKey_spread]
    simp [getKey, Ne.symm hk]
  · intro k hk
    rw [Config.defineWritableCollection, getKey_spread]
    simp [getKey, Ne.symm hk]
  · simp only [Types.defineWritableCollection, Types.baseDefineCollection]
    exact map_fst_pairmap _ _
  · intro k f h
    exact ⟨List.mem_map.mpr ⟨(k, f), h, rfl⟩,
      fun k2 hk2 => getKey_setKey_other _ _ _ _ hk2⟩

/-- Witness for C5 at a config carrying fields and data. -/
theorem c5_witness :
    getKey (Config.defineCollection [("fields", Value.vobj []), ("data", Value.vfunc Value.vundef)])
        "writable" = some (Value.vbool false) ∧
    getKey (Config.defineCollection [("fields", Value.vobj []), ("data", Value.vfunc Value.vundef)])
        "data" = some (Value.vfunc Value.vundef) := by
  refine ⟨(c5_writable_tags [("fields", Value.vobj []), ("data", Value.vfunc Value.vundef)] ⟨[], []⟩).1, ?_⟩
  have h := (c5_writable_tags [("fields", Value.vobj []), ("data", Value.vfunc Value.vundef)]
    ⟨[], []⟩).2.2.1 "data" (by decide)
  rw [h]
  rfl

/-- C8: each `field.*` constructor of `config.ts` returns a field whose
`type` tag matches the constructor name, applies the defaults
`optional = false`, `unique = false`, `label = undefined`,
`default = undefined` (and `multiline = false` for text) first, and lets
every user-supplied option override the corresponding default. -/
theorem c8_field_constructor_defaults (opts : List (String × Value))
    (hty : getKey opts "type" = none) :
    (getKey (Config.field.number opts) "type" = some (.vstr "number") ∧
     getKey (Config.field.boolean opts) "type" = some (.vstr "boolean") ∧
     getKey (Config.field.text opts) "type" = some (.vstr "text") ∧
     getKey (Config.field.date opts) "type" = some (.vstr "date") ∧
     getKey (Config.field.json opts) "type" = some (.vstr "json")) ∧
    (∀ k v, getKey opts k = some v →
       getKey (Config.field.number opts) k = some v ∧
       getKey (Config.field.boolean opts) k = some v ∧
       getKey (Config.field.text opts) k = some v ∧
       getKey (Config.field.date opts) k = some v ∧
       getKey (Config.field.json opts) k = some v) ∧
    (∀ k, getKey opts k = none → k ≠ "type" →
       getKey (Config.field.number opts) k = getKey Config.baseDefaults k ∧
       getKey (Config.field.boolean opts) k = getKey Config.baseDefaults k ∧
       (k ≠ "multiline" → getKey (Config.field.text opts) k = getKey Config.baseDefaults k) ∧
       getKey (Config.field.date opts) k = getKey Config.baseDefaults k ∧
       getKey (Config.field.json opts) k = getKey Config.baseDefaults k) ∧
    (getKey opts "multiline" = none →
       getKey (Config.field.text opts) "multiline" = some (.vbool false)) ∧
    (getKey Config.baseDefaults "optional" = some (.vbool false) ∧
     getKey Config.baseDefaults "unique" = some (.vbool false) ∧
     getKey Config.baseDefaults "label" = some .vundef ∧
     getKey Config.baseDefaults "default" = some .vundef) := by
  refine ⟨?_, ?_, ?_, ?_, rfl, rfl, rfl, rfl⟩
  · refine ⟨?_, ?_, ?_, ?_, ?_⟩ <;>
      (first
        | (rw [Config.field.number, getKey_spread, hty]; rfl)
        | (rw [Config.field.boolean, getKey_spread, hty]; rfl)
        | (rw [Config.field.text, getKey_spread, hty]; rfl)
        | (rw [Config.field.date, getKey_spread, hty]; rfl)
        | (rw [Config.field.json, getKey_spread, hty]; rfl))
  · intro k v hv
    refine ⟨?_, ?_, ?_, ?_, ?_⟩ <;>
      (first
        | (rw [Config.field.number, getKey_spread, hv])
        | (rw [Config.field.boolean, getKey_spread, hv])
        | (rw [Config.field.text, getKey_spread, hv])
        | (rw [Config.field.date, getKey_spread, hv])
        | (rw [Config.field.json, getKey_spread, hv]))
  · intro k hk hkty
    have hlit1 : ∀ s : String, getKey [("type", Value.vstr s)] k = none := by
      intro s
      simp [getKey, Ne.symm hkty]
    refine ⟨?_, ?_, ?_, ?_, ?_⟩
    · rw [Config.field.number, getKey_spread, hk, getKey_spread]
      cases hb : getKey Config.baseDefaults k <;> simp [hlit1]
    · rw [Config.field.boolean, getKey_spread, hk, getKey_spread]
      cases hb : getKey Config.baseDefaults k <;> simp [hlit1]
    · intro hkm
      rw [Config.field.text, getKey_spread, hk, getKey_spread]
      cases hb : getKey Config.baseDefaults k <;>
        simp [getKey, Ne.symm hkty, Ne.symm hkm]
    · rw [Config.field.date, getKey_spread, hk, getKey_spread]
      cases hb : getKey Config.baseDefaults k <;> simp [hlit1]
    · rw [Config.field.json, getKey_spread, hk, getKey_spread]
      cases hb : getKey Config.baseDefaults k <;> simp [hlit1]
  · intro hm
    rw [Config.field.text, getKey_spread, hm]
    rfl

/-- Witness for C8: `field.text({unique: true})` keeps the user option, fills
the multiline and optional defaults, and tags the type. -/
theorem c8_witness :
    getKey (Config.field.text [("unique", Value.vbool true)]) "type"
        = some (Value.vstr "text") ∧
    getKey (Config.field.text [("unique", Value.vbool true)]) "unique"
        = some (Value.vbool true) ∧
    getKey (Config.field.text [("unique", Value.vbool true)]) "multiline"
        = some (Value.vbool false) ∧
    getKey (Config.field.text [("unique", Value.vbool true)]) "optional"
        = getKey Config.baseDefaults "optional" :=
  ⟨((c8_field_constructor_defaults [("unique", Value.vbool true)] rfl).1).2.2.1,
   ((c8_field_constructor_defaults [("unique", Value.vbool true)] rfl).2.1
      "unique" (Value.vbool true) rfl).2.2.1,
   ((c8_field_constructor_defaults [("unique", Value.vbool true)] rfl).2.2.2.1 rfl),
   ((c8_field_constructor_defaults [("unique", Value.vbool true)] rfl).2.2.1
      "optional" rfl (by decide)).2.2.1 (by decide)⟩

theorem type_spec_mem_boolean :
    KeySpec.mk "type" true (parseLit "boolean") ∈ booleanFieldSpecs :=
  List.mem_append_right _ (List.mem_cons_self _ _)

theorem type_spec_mem_number :
    KeySpec.mk "type" true (parseLit "number") ∈ numberFieldSpecs :=
  List.mem_append_right _ (List.mem_cons_self _ _)

theorem type_spec_mem_text :
    KeySpec.mk "type" true (parseLit "text") ∈ textFieldSpecs :=
  List.mem_append_right _ (List.mem_cons_self _ _)

theorem type_spec_mem_date :
    KeySpec.mk "type" true (parseLit "date") ∈ dateFieldSpecs :=
  List.mem_append_right _ (List.mem_cons_self _ _)

theorem type_spec_mem_json :
    KeySpec.mk "type" true (parseLit "json") ∈ jsonFieldSpecs :=
  List.mem_append_right _ (List.mem_cons_self _ _)

/-- C3: a value passes the field schema only if its `type` tag is one of the
five literals boolean / number / text / date / json, and a field definition
carrying any other type tag is rejected with a schema-violation error. -/
theorem c3_field_type_tags (v : Value) :
    ((fieldSchema v).isSome = true →
       ∃ fs t, v = .vobj fs ∧ lookupDefined fs "type" = some (.vstr t) ∧
         (t = "boolean" ∨ t = "number" ∨ t = "text" ∨ t = "date" ∨ t = "json")) ∧
    (∀ fs t, v = .vobj fs → lookupDefined fs "type" = some (.vstr t) →
       t ≠ "boolean" → t ≠ "number" → t ≠ "text" → t ≠ "date" → t ≠ "json" →
       fieldSchema v = none) := by
  constructor
  · intro h
    replace h := (parseOr_isSome_iff booleanFieldSchema _ v).mp h
    rcases h with h | h
    · obtain ⟨o, ho⟩ := Option.isSome_iff_exists.mp h
      obtain ⟨fs, hv, hl⟩ := parseObj_type_some _ _ _ _ type_spec_mem_boolean ho
      exact ⟨fs, "boolean", hv, hl, Or.inl rfl⟩
    replace h := (parseOr_isSome_iff numberFieldSchema _ v).mp h
    rcases h with h | h
    · obtain ⟨o, ho⟩ := Option.isSome_iff_exists.mp h
      obtain ⟨fs, hv, hl⟩ := parseObj_type_some _ _ _ _ type_spec_mem_number ho
      exact ⟨fs, "number", hv, hl, Or.inr (Or.inl rfl)⟩
    replace h := (parseOr_isSome_iff textFieldSchema _ v).mp h
    rcases h with h | h
    · obtain ⟨o, ho⟩ := Option.isSome_iff_exists.mp h
      obtain ⟨fs, hv, hl⟩ := parseObj_type_some _ _ _ _ type_spec_mem_text ho
      exact ⟨fs, "text", hv, hl, Or.inr (Or.inr (Or.inl rfl))⟩
    replace h := (parseOr_isSome_iff dateFieldSchema _ v).mp h
    rcases h with h | h
    · obtain ⟨o, ho⟩ := Option.isSome_iff_exists.mp h
      obtain ⟨fs, hv, hl⟩ := parseObj_type_some _ _ _ _ type_spec_mem_date ho
      exact ⟨fs, "date", hv, hl, Or.inr (Or.inr (Or.inr (Or.inl rfl)))⟩
    · obtain ⟨o, ho⟩ := Option.isSome_iff_exists.mp h
      obtain ⟨fs, hv, hl⟩ := parseObj_type_some _ _ _ _ type_spec_mem_json ho
      exact ⟨fs, "json", hv, hl, Or.inr (Or.inr (Or.inr (Or.inr rfl)))⟩
  · intro fs t hv hl h1 h2 h3 h4 h5
    subst hv
    refine parseOr_none _ _ _ ?_ (parseOr_none _ _ _ ?_ (parseOr_none _ _ _ ?_
      (parseOr_none _ _ _ ?_ ?_)))
    · exact parseObj_type_fail _ _ fs t type_spec_mem_boolean hl h1
    · exact parseObj_type_fail _ _ fs t type_spec_mem_number hl h2
    · exact parseObj_type_fail _ _ fs t type_spec_mem_text hl h3
    · exact parseObj_type_fail _ _ fs t type_spec_mem_date hl h4
    · exact parseObj_type_fail _ _ fs t type_spec_mem_json hl h5

/-- Witness for C3: a text field passes and carries one of the five tags; a
field tagged `uuid` is rejected. -/
theorem c3_witness :
    (∃ fs t, Value.vobj [("type", Value.vstr "text")] = Value.vobj fs ∧
       lookupDefined fs "type" = some (Value.vstr t) ∧
       (t = "boolean" ∨ t = "number" ∨ t = "text" ∨ t = "date" ∨ t = "json")) ∧
    fieldSchema (Value.vobj [("type", Value.vstr "uuid")]) = none :=
  ⟨(c3_field_type_tags (Value.vobj [("type", Value.vstr "text")])).1 rfl,
   (c3_field_type_tags (Value.vobj [("type", Value.vstr "uuid")])).2
     [("type", Value.vstr "uuid")] "uuid" rfl rfl
     (by decide) (by decide) (by decide) (by decide) (by decide)⟩

/-- C4: the referenceable fields are exactly the union of text and number
fields (and carry a text/number type tag); the parsed boolean, date and json
fields admit no `references` property; and invoking the zod-wrapped
`references` function of a number or text field succeeds exactly when its
result is itself a text or number field. -/
theorem c4_referenceable_fields (v r : Value) :
    ((referenceableFieldSchema v).isSome = true ↔
       (textFieldSchema v).isSome = true ∨ (numberFieldSchema v).isSome = true) ∧
    ((referenceableFieldSchema v).isSome = true →
       ∃ fs t, v = .vobj fs ∧ lookupDefined fs "type" = some (.vstr t) ∧
         (t = "text" ∨ t = "number")) ∧
    (∀ fs o, booleanFieldSchema (.vobj fs) = some (.vobj o) →
       getKey o "references" = none) ∧
    (∀ fs o, dateFieldSchema (.vobj fs) = some (.vobj o) →
       getKey o "references" = none) ∧
    (∀ fs o, jsonFieldSchema (.vobj fs) = some (.vobj o) →
       getKey o "references" = none) ∧
    ((invokeChecked referenceableFieldSchema (.vfunc r)).isSome = true ↔
       (textFieldSchema r).isSome = true ∨ (numberFieldSchema r).isSome = true) := by
  refine ⟨parseOr_isSome_iff _ _ _, ?_, ?_, ?_, ?_, parseOr_isSome_iff _ _ _⟩
  · intro h
    replace h := (parseOr_isSome_iff textFieldSchema numberFieldSchema v).mp h
    rcases h with h | h
    · obtain ⟨o, ho⟩ := Option.isSome_iff_exists.mp h
      obtain ⟨fs, hv, hl⟩ := parseObj_type_some _ _ _ _ type_spec_mem_text ho
      exact ⟨fs, "text", hv, hl, Or.inl rfl⟩
    · obtain ⟨o, ho⟩ := Option.isSome_iff_exists.mp h
      obtain ⟨fs, hv, hl⟩ := parseObj_type_some _ _ _ _ type_spec_mem_number ho
      exact ⟨fs, "number", hv, hl, Or.inr rfl⟩
  · intro fs o hparse
    obtain ⟨fs2, out, hv, ho, hk⟩ := parseObj_elim _ _ _ hparse
    injection hv with hfs
    subst hfs
    injection ho with hout
    subst hout
    rw [parseKeys_getKey _ _ _ hk "references"]
    cases hlr : lookupDefined fs "references" <;> rfl
  · intro fs o hparse
    obtain ⟨fs2, out, hv, ho, hk⟩ := parseObj_elim _ _ _ hparse
    injection hv with hfs
    subst hfs
    injection ho with hout
    subst hout
    rw [parseKeys_getKey _ _ _ hk "references"]
    cases hlr : lookupDefined fs "references" <;> rfl
  · intro fs o hparse
    obtain ⟨fs2, out, hv, ho, hk⟩ := parseObj_elim _ _ _ hparse
    injection hv with hfs
    subst hfs
    injection ho with hout
    subst hout
    rw [parseKeys_getKey _ _ _ hk "references"]
    cases hlr : lookupDefined fs "references" <;> rfl

/-- Witness for C4: a boolean field keeps no `references` even when the user
wrote one, and the wrapped call check accepts a text result. -/
theorem c4_witness :
    getKey [("type", Value.vstr "boolean")] "references" = none ∧
    ((invokeChecked referenceableFieldSchema
        (Value.vfunc (Value.vobj [("type", Value.vstr "text")]))).isSome = true) :=
  ⟨(c4_referenceable_fields (Value.vobj [("type", Value.vstr "boolean"),
        ("references", Value.vfunc Value.vnull)]) Value.vnull).2.2.1
      [("type", Value.vstr "boolean"), ("references", Value.vfunc Value.vnull)]
      [("type", Value.vstr "boolean")] rfl,
   (c4_referenceable_fields Value.vnull
        (Value.vobj [("type", Value.vstr "text")])).2.2.2.2.2.mpr
      (Or.inl rfl)⟩

theorem collection_branch_shape (ws : Bool) (fs : List (String × Value)) (o : Value)
    (h : parseObj (baseCollectionSpecs ++ [⟨"writable", true, parseLitBool ws⟩])
        (.vobj fs) = some o) :
    (∃ v pv, lookupDefined fs "fields" = some v ∧ fieldsSchema v = some pv) ∧
    lookupDefined fs "writable" = some (.vbool ws) := by
  obtain ⟨fs2, out, hv, ho, hk⟩ := parseObj_elim _ _ _ h
  injection hv with hfs
  subst hfs
  constructor
  · obtain ⟨v, pv, hl, hp⟩ := parseKeys_required _ _ _ hk ⟨"fields", true, fieldsSchema⟩
      (List.mem_append_left _ (List.Mem.head _)) rfl
    exact ⟨v, pv, hl, hp⟩
  · obtain ⟨v, pv, hl, hp⟩ := parseKeys_required _ _ _ hk ⟨"writable", true, parseLitBool ws⟩
      (List.mem_append_right _ (List.Mem.head _)) rfl
    rw [hl, parseLitBool_eq_vbool ws v pv hp]

/-- C7: the collection schema accepts a value only when a valid `fields`
record and a boolean-literal `writable` tag are present; a collection
lacking `fields` is rejected, while one lacking `indexes` and `foreignKeys`
is accepted. -/
theorem c7_collection_shape :
    (∀ fs o, collectionSchema (.vobj fs) = some o →
       (∃ v pv, lookupDefined fs "fields" = some v ∧ fieldsSchema v = some pv) ∧
       (lookupDefined fs "writable" = some (.vbool true) ∨
        lookupDefined fs "writable" = some (.vbool false))) ∧
    (∀ fs, lookupDefined fs "fields" = none →
       collectionSchema (.vobj fs) = none) ∧
    (∀ ffs out w, parseEntries fieldSchema ffs = some out →
       (collectionSchema
          (.vobj [("fields", .vobj ffs), ("writable", .vbool w)])).isSome = true) := by
  refine ⟨?_, ?_, ?_⟩
  · intro fs o h
    cases hr : readableCollectionSchema (.vobj fs) with
    | some o2 =>
      have hs := collection_branch_shape false fs o2 hr
      exact ⟨hs.1, Or.inr hs.2⟩
    | none =>
      simp only [collectionSchema, parseOr, hr] at h
      have hs := collection_branch_shape true fs o h
      exact ⟨hs.1, Or.inl hs.2⟩
  · intro fs h
    refine parseOr_none _ _ _ ?_ ?_
    · simp only [readableCollectionSchema, parseObj]
      rw [parseKeys_missing readableCollectionSpecs fs ⟨"fields", true, fieldsSchema⟩
        (List.mem_append_left _ (List.Mem.head _)) h rfl]
    · simp only [writableCollectionSchema, parseObj]
      rw [parseKeys_missing writableCollectionSpecs fs ⟨"fields", true, fieldsSchema⟩
        (List.mem_append_left _ (List.Mem.head _)) h rfl]
  · intro ffs out w hffs
    cases w <;>
      simp [collectionSchema, parseOr, readableCollectionSchema,
        writableCollectionSchema, parseObj, readableCollectionSpecs,
        writableCollectionSpecs, baseCollectionSpecs, parseKeys, lookupDefined,
        getKey, fieldsSchema, parseRecord, hffs, parseLitBool]

/-- Witness for C7: a collection without `fields` is rejected; one with only
`fields` and `writable` (no indexes, no foreignKeys) is accepted. -/
theorem c7_witness :
    collectionSchema (Value.vobj [("writable", Value.vbool false)]) = none ∧
    (collectionSchema (Value.vobj
      [("fields", Value.vobj [("id", Value.vobj [("type", Value.vstr "number")])]),
       ("writable", Value.vbool true)])).isSome = true :=
  ⟨c7_collection_shape.2.1 [("writable", Value.vbool false)] rfl,
   c7_collection_shape.2.2 [("id", Value.vobj [("type", Value.vstr "number")])] _ true rfl⟩

/-- C9: a date field default of the literal string `now` is preserved
unchanged; any other date-coercible default is replaced by the ISO string of
the coerced date; a default that is neither `now` nor date-coercible is
rejected. -/
theorem c9_date_default (fs : List (String × Value)) (d : Value)
    (hd : lookupDefined fs "default" = some d) :
    (∀ o, dateFieldSchema (.vobj fs) = some (.vobj o) →
       (d = .vstr "now" → getKey o "default" = some (.vstr "now")) ∧
       (∀ t, jsDateCoerce d = some t → d ≠ .vstr "now" →
          getKey o "default" = some (.vstr (toISOString t)))) ∧
    (d ≠ .vstr "now" → jsDateCoerce d = none →
       dateFieldSchema (.vobj fs) = none) := by
  constructor
  · intro o hparse
    obtain ⟨fs2, out, hv, ho, hk⟩ := parseObj_elim _ _ _ hparse
    injection hv with hfs
    subst hfs
    injection ho with hout
    subst hout
    have hg : getKey o "default" = parseDateDefault d := by
      rw [parseKeys_getKey _ _ _ hk "default", hd]
      rfl
    constructor
    · intro hnow
      rw [hg, hnow]
      rfl
    · intro t ht hne
      rw [hg]
      unfold parseDateDefault
      rw [parseLit_none_of_ne _ _ hne, ht]
  · intro hne hco
    have hpd : parseDateDefault d = none := by
      unfold parseDateDefault
      rw [parseLit_none_of_ne _ _ hne, hco]
    simp only [dateFieldSchema, parseObj]
    rw [parseKeys_fail dateFieldSpecs fs ⟨"default", false, parseDateDefault⟩
      (List.mem_append_right _ (List.Mem.tail _ (List.Mem.head _))) d hd hpd]

/-- Witness for C9: the ISO-string default `2020-01-02` is stored as the ISO
string of its coerced time value, a `Date` default (timestamp 42) likewise,
a function default is rejected, and a numeric default one past the
±8.64e15 ms time clip is rejected. -/
theorem c9_witness :
    getKey [("type", Value.vstr "date"),
        ("default", Value.vstr "2020-01-02T00:00:00.000Z")] "default"
      = some (Value.vstr "2020-01-02T00:00:00.000Z") ∧
    getKey [("type", Value.vstr "date"),
        ("default", Value.vstr "1970-01-01T00:00:00.042Z")] "default"
      = some (Value.vstr "1970-01-01T00:00:00.042Z") ∧
    dateFieldSchema (Value.vobj
        [("type", Value.vstr "date"), ("default", Value.vfunc Value.vnull)]) = none ∧
    dateFieldSchema (Value.vobj
        [("type", Value.vstr "date"), ("default", Value.vnum 8640000000000001)]) = none :=
  ⟨((c9_date_default [("type", Value.vstr "date"), ("default", Value.vstr "2020-01-02")]
        (Value.vstr "2020-01-02") rfl).1 _ rfl).2 1577923200000 rfl
      (by intro h; injection h with h2; revert h2; decide),
   ((c9_date_default [("type", Value.vstr "date"), ("default", Value.vdate 42)]
        (Value.vdate 42) rfl).1 _ rfl).2 42 rfl (fun h => Value.noConfusion h),
   (c9_date_default [("type", Value.vstr "date"), ("default", Value.vfunc Value.vnull)]
        (Value.vfunc Value.vnull) rfl).2 (fun h => Value.noConfusion h) rfl,
   (c9_date_default [("type", Value.vstr "date"), ("default", Value.vnum 8640000000000001)]
        (Value.vnum 8640000000000001) rfl).2 (fun h => Value.noConfusion h) rfl⟩

/-- C6 counterexample: a DB config whose collections record carries two
entries both named `posts` parses successfully — no duplicate-collection-name
validation error is raised anywhere in the config schemas. -/
theorem c6_counterexample :
    (Config.dbConfigSchema (Value.vobj [("collections", Value.vobj
      [("posts", Value.vobj [("fields", Value.vobj []), ("writable", Value.vbool false)]),
       ("posts", Value.vobj [("fields", Value.vobj []), ("writable", Value.vbool true)])])])).isSome
      = true := rfl

/-- C6 (amended): validating a DB config surfaces schema-violation errors
synchronously at config-load time for malformed collection/field
definitions — a config whose collections record contains any entry that the
collection schema rejects is itself rejected. (Duplicate collection names
are not detected: the collections record parses entry-wise, see the
counterexample.) -/
theorem c6_config_rejects_malformed (cfg cols : List (String × Value))
    (k : String) (c : Value)
    (h1 : lookupDefined cfg "collections" = some (.vobj cols))
    (h2 : (k, c) ∈ cols) (h3 : collectionSchema c = none) :
    Config.dbConfigSchema (.vobj cfg) = none := by
  have hrec : collectionsSchema (.vobj cols) = none := by
    simp only [collectionsSchema, parseRecord]
    rw [parseEntries_fail collectionSchema cols k c h2 h3]
  simp only [Config.dbConfigSchema, parseObj]
  rw [parseKeys_fail Config.dbConfigSpecs cfg ⟨"collections", false, collectionsSchema⟩
    (List.Mem.tail _ (List.Mem.head _)) _ h1 hrec]

/-- Witness for C6: a config with one collection that lacks `fields` is
rejected at load time. -/
theorem c6_witness :
    Config.dbConfigSchema (Value.vobj [("collections", Value.vobj
      [("posts", Value.vobj [("writable", Value.vbool false)])])]) = none :=
  c6_config_rejects_malformed
    [("collections", Value.vobj [("posts", Value.vobj [("writable", Value.vbool false)])])]
    [("posts", Value.vobj [("writable", Value.vbool false)])]
    "posts" (Value.vobj [("writable", Value.vbool false)])
    rfl (List.Mem.head _) rfl

end AstroDb
